import Mathlib

/-!
Shallow embedding of the form.go decoder (files form.go and decode_state.go):
`Load(data map[string][]string, v any) error` populates the fields of a struct
from a mapping of form keys to value sequences.

Modelling choices:
* A Go struct is a list of fields, each carrying its declared name, its
  `request` tag (empty string when absent), its settability and its current
  value.  The value kinds covered are the ones the verified claims mention:
  64-bit signed and unsigned integers, bool, string, slices of int/uint/string
  scalars, and an opaque `vOther` for any kind the coercion switch does not
  recognize (such kinds fall into the switch's `default` branch).
* reflect-level runtime panics (reflect.MakeSlice on a non-slice type,
  reflect.Value.SetBool on a struct value, indexing dataV out of range) are
  modelled with `Except GoPanic`.
* The decode session's single `savedError` slot is threaded explicitly as an
  `Option DecodeErr`.
-/

namespace Form

/-- Errors the decoder can record.  `invalidValue` models the package-level
`errInvalidValue` sentinel; `loadTypeError v` models
`&LoadTypeError{Value: v, Type: ...}` — on every path the code takes, the
`Type` field is the enclosing struct's type (`v.Type()`), constant within one
call, so only the value description is carried here. -/
inductive DecodeErr
  | invalidValue
  | loadTypeError (value : String)
deriving DecidableEq

/-- `decodeState.saveError` (decode_state.go lines 165-169): record the error
only when the slot is still empty — the first recorded error wins and later
calls are no-ops (`addErrorContext` is the identity, line 176-178). -/
def saveError (e : Option DecodeErr) (n : DecodeErr) : Option DecodeErr :=
  match e with
  | none => some n
  | some _ => e

/-- Current value of one struct field, restricted to the kinds the claims are
about. -/
inductive GoVal
  | vInt (n : Int)
  | vUint (n : Nat)
  | vBool (b : Bool)
  | vStr (s : String)
  | vSliceInt (xs : List Int)
  | vSliceUint (xs : List Nat)
  | vSliceStr (xs : List String)
  | vOther
deriving DecidableEq

/-- `fieldValue.Kind() == reflect.Slice` (decode_state.go line 98). -/
def isSliceVal : GoVal → Bool
  | .vSliceInt _ => true
  | .vSliceUint _ => true
  | .vSliceStr _ => true
  | _ => false

/-- One struct field as the reflection walk sees it: declared name, `request`
tag (empty when absent), CanSet flag, current value. -/
structure Field where
  name : String
  tag : String
  settable : Bool
  val : GoVal
deriving DecidableEq

/-- reflect-level runtime panics reachable in decodeState.value. -/
inductive GoPanic
  | makeSliceOfNonSliceType
  | setBoolOnStruct
  | indexOutOfRange
deriving DecidableEq

/-- Value of a base-10 digit string. -/
def digitsVal (cs : List Char) : Nat :=
  cs.foldl (fun a c => a * 10 + (c.toNat - 48)) 0

/-- strconv.ParseUint(s, 10, 64): parsed value plus a success flag.  A sign
prefix is not permitted; syntax errors yield value 0, range errors clamp to
2^64 - 1; both report failure. -/
def goParseUint (s : String) : Nat × Bool :=
  if s.data.isEmpty || !(s.data.all Char.isDigit) then (0, false)
  else if digitsVal s.data ≥ 2 ^ 64 then (2 ^ 64 - 1, false)
  else (digitsVal s.data, true)

/-- Strip an optional leading sign; returns (isNegative, remaining chars). -/
def signSplit : List Char → Bool × List Char
  | '-' :: rest => (true, rest)
  | '+' :: rest => (false, rest)
  | cs => (false, cs)

/-- strconv.ParseInt(s, 10, 64): optional sign then digits; syntax errors
yield value 0, range errors clamp to MinInt64 / MaxInt64; both report
failure. -/
def goParseInt (s : String) : Int × Bool :=
  let p := signSplit s.data
  if p.2.isEmpty || !(p.2.all Char.isDigit) then (0, false)
  else
    let n : Int := digitsVal p.2
    if p.1 then
      if n > 2 ^ 63 then (-(2 ^ 63), false) else (-n, true)
    else
      if n > 2 ^ 63 - 1 then (2 ^ 63 - 1, false) else (n, true)

/-- Strings strconv.ParseUint(·, 10, 64) rejects with a syntax error
(empty, or containing a non-digit — including any sign prefix). -/
def uintSyntaxBad (s : String) : Bool :=
  s.data.isEmpty || !(s.data.all Char.isDigit)

/-- Strings strconv.ParseInt(·, 10, 64) rejects with a syntax error. -/
def intSyntaxBad (s : String) : Bool :=
  (signSplit s.data).2.isEmpty || !((signSplit s.data).2.all Char.isDigit)

/-- Lookup-key resolution (decode_state.go lines 73-84): the `request` tag
when present and non-empty, otherwise the field's declared name. -/
def fieldKey (f : Field) : String :=
  if f.tag ≠ "" then f.tag else f.name

/-- Element loop of the slice branch (lines 103-125) for int elements:
element i receives strconv.ParseInt(dataV[i], 10, 64) with the error
discarded; reading dataV[i] for i ≥ len(dataV) panics. -/
def elemLoopInt : List Int → List String → Option DecodeErr →
    Except GoPanic (List Int × Option DecodeErr)
  | [], _, e => .ok ([], e)
  | _ :: _, [], _ => .error .indexOutOfRange
  | _ :: xs, d :: ds, e =>
    match elemLoopInt xs ds e with
    | .error p => .error p
    | .ok (rest, e2) => .ok ((goParseInt d).1 :: rest, e2)

/-- Element loop for uint elements: a parse failure records
`&LoadTypeError{Value: "array " + dataV[i], Type: v.Type()}` through
saveError, and the (zero or clamped) parsed value is still written. -/
def elemLoopUint : List Nat → List String → Option DecodeErr →
    Except GoPanic (List Nat × Option DecodeErr)
  | [], _, e => .ok ([], e)
  | _ :: _, [], _ => .error .indexOutOfRange
  | _ :: xs, d :: ds, e =>
    let p := goParseUint d
    let e1 := if p.2 then e else saveError e (.loadTypeError ("array " ++ d))
    match elemLoopUint xs ds e1 with
    | .error q => .error q
    | .ok (rest, e2) => .ok (p.1 :: rest, e2)

/-- Element loop for string elements: dataV[i] is assigned verbatim. -/
def elemLoopStr : List String → List String → Option DecodeErr →
    Except GoPanic (List String × Option DecodeErr)
  | [], _, e => .ok ([], e)
  | _ :: _, [], _ => .error .indexOutOfRange
  | _ :: xs, d :: ds, e =>
    match elemLoopStr xs ds e with
    | .error p => .error p
    | .ok (rest, e2) => .ok (d :: rest, e2)

/-- Slice branch (decode_state.go lines 98-126).  When the field's current
length is zero the code executes
`v.Set(reflect.MakeSlice(v.Type(), len(dataV), len(dataV)))` where `v` is the
enclosing STRUCT value, so reflect.MakeSlice panics on the non-slice type;
otherwise the element loop runs over the field's current length. -/
def sliceStep (f : Field) (dataV : List String) (e : Option DecodeErr) :
    Except GoPanic (GoVal × Option DecodeErr) :=
  match f.val with
  | .vSliceInt xs =>
    if xs.length = 0 then .error .makeSliceOfNonSliceType
    else
      match elemLoopInt xs dataV e with
      | .error p => .error p
      | .ok (r, e1) => .ok (.vSliceInt r, e1)
  | .vSliceUint xs =>
    if xs.length = 0 then .error .makeSliceOfNonSliceType
    else
      match elemLoopUint xs dataV e with
      | .error p => .error p
      | .ok (r, e1) => .ok (.vSliceUint r, e1)
  | .vSliceStr xs =>
    if xs.length = 0 then .error .makeSliceOfNonSliceType
    else
      match elemLoopStr xs dataV e with
      | .error p => .error p
      | .ok (r, e1) => .ok (.vSliceStr r, e1)
  | v => .ok (v, e)

/-- Scalar coercion switch (decode_state.go lines 136-159), switching on the
field's kind.  The Bool case executes `v.SetBool(...)` on the enclosing
STRUCT value (line 147) and panics; the `default` branch assigns
`d.savedError = errInvalidValue` unconditionally (line 158), bypassing
saveError. -/
def scalarStep (f : Field) (v1 : GoVal) (d0 : String) (e1 : Option DecodeErr) :
    Except GoPanic (Field × Option DecodeErr) :=
  match v1 with
  | .vInt _ => .ok ({ f with val := .vInt (goParseInt d0).1 }, e1)
  | .vUint _ =>
    let p := goParseUint d0
    let e2 := if p.2 then e1 else saveError e1 (.loadTypeError ("number " ++ d0))
    .ok ({ f with val := .vUint p.1 }, e2)
  | .vBool _ => .error .setBoolOnStruct
  | .vStr _ => .ok ({ f with val := .vStr d0 }, e1)
  | v => .ok ({ f with val := v }, some .invalidValue)

/-- Body of the per-field loop of decodeState.value (lines 86-160): key
lookup, settability check, slice branch, then — when the sequence is
non-empty and its first value is not "null" — the scalar switch. -/
def processField (data : List (String × List String)) (f : Field)
    (e : Option DecodeErr) : Except GoPanic (Field × Option DecodeErr) :=
  match data.lookup (fieldKey f) with
  | none => .ok (f, e)
  | some dataV =>
    if f.settable = false then .ok (f, e)
    else
      match sliceStep f dataV e with
      | .error p => .error p
      | .ok (v1, e1) =>
        match dataV with
        | [] => .ok ({ f with val := v1 }, e1)
        | d0 :: _ =>
          if d0 = "null" then .ok ({ f with val := v1 }, e1)
          else scalarStep f v1 d0 e1

/-- decodeState.value's walk over the fields in declaration order, threading
the savedError slot. -/
def value (data : List (String × List String)) :
    List Field → Option DecodeErr → Except GoPanic (List Field × Option DecodeErr)
  | [], e => .ok ([], e)
  | f :: fs, e =>
    match processField data f e with
    | .error p => .error p
    | .ok (f1, e1) =>
      match value data fs e1 with
      | .error p => .error p
      | .ok (fs1, e2) => .ok (f1 :: fs1, e2)

/-- The destination argument of Load, as reflection classifies it:
a nil interface, a non-pointer value, a typed nil pointer, a pointer to a
non-struct value, or a pointer to a struct with the given fields.  The
string carries the type's printed name for the error message. -/
inductive Dest
  | nilAny
  | nonPtr (typeStr : String)
  | nilPtr (typeStr : String)
  | ptrNonStruct
  | ptr (fields : List Field)
deriving DecidableEq

/-- InvalidLoadError.Error() (decode_state.go lines 21-30).  `none` models a
nil `Type`; `some (t, k)` a type printing as `t` whose Kind is Pointer iff
`k`. -/
def invalidLoadErrorMessage : Option (String × Bool) → String
  | none => "form: Parse(nil)"
  | some (t, false) => "form: Parse(non-pointer " ++ t ++ ")"
  | some (t, true) => "form: Parse(nil " ++ t ++ ")"

/-- The value Load returns: a *InvalidLoadError (destination untouched), the
errInvalidValue for a pointer whose target is not a struct, or completion of
the field walk with the final fields and savedError. -/
inductive LoadOutcome
  | structural (ty : Option (String × Bool))
  | invalidDest
  | done (fields : List Field) (e : Option DecodeErr)
deriving DecidableEq

/-- Load (form.go) / decodeState.parse (decode_state.go lines 53-64): the
structural checks on the destination, then the field walk on a fresh session
(savedError starts empty); the walk's savedError is returned. -/
def Load (data : List (String × List String)) : Dest → Except GoPanic LoadOutcome
  | .nilAny => .ok (.structural none)
  | .nonPtr t => .ok (.structural (some (t, false)))
  | .nilPtr t => .ok (.structural (some (t, true)))
  | .ptrNonStruct => .ok .invalidDest
  | .ptr fields =>
    match value data fields none with
    | .error p => .error p
    | .ok (fs, e) => .ok (.done fs e)

/-! ### Helper lemmas about the error slot and the element loops -/

lemma saveError_some (e n : DecodeErr) : saveError (some e) n = some e := rfl

lemma elemLoopInt_err_eq (xs : List Int) : ∀ (ds : List String) (e : Option DecodeErr)
    (r : List Int) (e2 : Option DecodeErr), elemLoopInt xs ds e = .ok (r, e2) → e2 = e := by
  induction xs with
  | nil =>
    intro ds e r e2 h
    simp [elemLoopInt] at h
    exact h.2.symm
  | cons x xs ih =>
    intro ds e r e2 h
    cases ds with
    | nil => simp [elemLoopInt] at h
    | cons d ds =>
      simp only [elemLoopInt] at h
      cases hrec : elemLoopInt xs ds e with
      | error p => rw [hrec] at h; simp at h
      | ok pr =>
        obtain ⟨rest, e3⟩ := pr
        rw [hrec] at h
        simp at h
        exact h.2 ▸ ih ds e rest e3 hrec

lemma elemLoopStr_err_eq (xs : List String) : ∀ (ds : List String) (e : Option DecodeErr)
    (r : List String) (e2 : Option DecodeErr), elemLoopStr xs ds e = .ok (r, e2) → e2 = e := by
  induction xs with
  | nil =>
    intro ds e r e2 h
    simp [elemLoopStr] at h
    exact h.2.symm
  | cons x xs ih =>
    intro ds e r e2 h
    cases ds with
    | nil => simp [elemLoopStr] at h
    | cons d ds =>
      simp only [elemLoopStr] at h
      cases hrec : elemLoopStr xs ds e with
      | error p => rw [hrec] at h; simp at h
      | ok pr =>
        obtain ⟨rest, e3⟩ := pr
        rw [hrec] at h
        simp at h
        exact h.2 ▸ ih ds e rest e3 hrec

lemma elemLoopUint_keeps (xs : List Nat) : ∀ (ds : List String) (e0 : DecodeErr)
    (r : List Nat) (e2 : Option DecodeErr),
    elemLoopUint xs ds (some e0) = .ok (r, e2) → e2 = some e0 := by
  induction xs with
  | nil =>
    intro ds e0 r e2 h
    simp [elemLoopUint] at h
    exact h.2.symm
  | cons x xs ih =>
    intro ds e0 r e2 h
    cases ds with
    | nil => simp [elemLoopUint] at h
    | cons d ds =>
      simp only [elemLoopUint, saveError] at h
      rw [ite_self (some e0)] at h
      cases hrec : elemLoopUint xs ds (some e0) with
      | error p => rw [hrec] at h; simp at h
      | ok pr =>
        obtain ⟨rest, e3⟩ := pr
        rw [hrec] at h
        simp at h
        exact h.2 ▸ ih ds e0 rest e3 hrec

lemma sliceStep_keeps (f : Field) (dataV : List String) (e0 : DecodeErr)
    (v1 : GoVal) (e1 : Option DecodeErr)
    (h : sliceStep f dataV (some e0) = .ok (v1, e1)) : e1 = some e0 := by
  unfold sliceStep at h
  cases hv : f.val <;> rw [hv] at h <;> dsimp only at h
  case vInt n => simp at h; exact h.2.symm
  case vUint n => simp at h; exact h.2.symm
  case vBool b => simp at h; exact h.2.symm
  case vStr s => simp at h; exact h.2.symm
  case vOther => simp at h; exact h.2.symm
  case vSliceInt xs =>
    by_cases h0 : xs.length = 0
    · rw [if_pos h0] at h; simp at h
    · rw [if_neg h0] at h
      cases hrec : elemLoopInt xs dataV (some e0) with
      | error p => rw [hrec] at h; simp at h
      | ok pr =>
        obtain ⟨r, e3⟩ := pr
        rw [hrec] at h
        simp at h
        exact h.2 ▸ elemLoopInt_err_eq xs dataV (some e0) r e3 hrec
  case vSliceUint xs =>
    by_cases h0 : xs.length = 0
    · rw [if_pos h0] at h; simp at h
    · rw [if_neg h0] at h
      cases hrec : elemLoopUint xs dataV (some e0) with
      | error p => rw [hrec] at h; simp at h
      | ok pr =>
        obtain ⟨r, e3⟩ := pr
        rw [hrec] at h
        simp at h
        exact h.2 ▸ elemLoopUint_keeps xs dataV e0 r e3 hrec
  case vSliceStr xs =>
    by_cases h0 : xs.length = 0
    · rw [if_pos h0] at h; simp at h
    · rw [if_neg h0] at h
      cases hrec : elemLoopStr xs dataV (some e0) with
      | error p => rw [hrec] at h; simp at h
      | ok pr =>
        obtain ⟨r, e3⟩ := pr
        rw [hrec] at h
        simp at h
        exact h.2 ▸ elemLoopStr_err_eq xs dataV (some e0) r e3 hrec

lemma scalarStep_keeps (f : Field) (v1 : GoVal) (d0 : String) (e0 : DecodeErr)
    (f' : Field) (e' : Option DecodeErr)
    (h : scalarStep f v1 d0 (some e0) = .ok (f', e')) :
    e' = some e0 ∨ e' = some DecodeErr.invalidValue := by
  unfold scalarStep at h
  cases v1
  case vInt n => simp at h; exact Or.inl h.2.symm
  case vUint n =>
    simp only [saveError] at h
    rw [ite_self (some e0)] at h
    simp at h
    exact Or.inl h.2.symm
  case vBool b => simp at h
  case vStr s => simp at h; exact Or.inl h.2.symm
  case vSliceInt xs => simp at h; exact Or.inr h.2.symm
  case vSliceUint xs => simp at h; exact Or.inr h.2.symm
  case vSliceStr xs => simp at h; exact Or.inr h.2.symm
  case vOther => simp at h; exact Or.inr h.2.symm

/-! ### Parse-failure characterizations -/

lemma goParseUint_of_bad (s : String) (h : uintSyntaxBad s = true) :
    goParseUint s = (0, false) := by
  unfold uintSyntaxBad at h
  unfold goParseUint
  rw [if_pos h]

lemma goParseInt_of_bad (s : String) (h : intSyntaxBad s = true) :
    goParseInt s = (0, false) := by
  unfold intSyntaxBad at h
  unfold goParseInt
  simp only []
  rw [if_pos h]

/-! ### The claims -/

/-- Claim C1 (code_bug evidence): for a settable list-typed field of current
length zero whose key is present, the claim says Load resizes the field and
coerces element-wise; the code instead executes
`v.Set(reflect.MakeSlice(v.Type(), len(dataV), len(dataV)))` with `v` the
enclosing struct value (decode_state.go line 100), so reflect.MakeSlice
panics on the non-slice struct type and the field is never resized or
populated. -/
theorem C1_empty_slice_resize_panics :
    Load [("Xs", ["1", "2"])] (.ptr [⟨"Xs", "", true, GoVal.vSliceInt []⟩]) =
      .error GoPanic.makeSliceOfNonSliceType := rfl

/-- Claim C2 (code_bug evidence): for a settable bool field whose key is
present with first value "true", the claim says the field becomes true with
no error; the code instead executes `v.SetBool(...)` on the enclosing struct
value (decode_state.go line 147), so reflect panics and the field is never
written. -/
theorem C2_bool_set_panics :
    Load [("B", ["true"])] (.ptr [⟨"B", "", true, GoVal.vBool false⟩]) =
      .error GoPanic.setBoolOnStruct := rfl

/-- Claim C3: every coercion failure is recorded through the first-error-wins
accumulator saveError (a recorded error is never replaced), with exactly one
exception: the unrecognized-type default branch of the scalar switch writes
the session error slot unconditionally with the generic invalid-value error,
clobbering any previously recorded error; and Load returns the accumulated
error of the walk.  Stated as: (1) saveError keeps an already-recorded error;
(2) a field step starting with a recorded error either keeps it or replaces
it with invalidValue; (3) a concrete unrecognized-kind field does clobber a
recorded field error; (4) Load returns the walk's accumulated slot. -/
theorem C3_error_accumulation :
    (∀ (e n : DecodeErr), saveError (some e) n = some e) ∧
    (∀ (data : List (String × List String)) (f : Field) (e0 : DecodeErr)
        (f' : Field) (e' : Option DecodeErr),
        processField data f (some e0) = .ok (f', e') →
        e' = some e0 ∨ e' = some DecodeErr.invalidValue) ∧
    (processField [("K", ["x"])] ⟨"K", "", true, GoVal.vOther⟩
        (some (DecodeErr.loadTypeError "boom")) =
      .ok (⟨"K", "", true, GoVal.vOther⟩, some DecodeErr.invalidValue)) ∧
    (∀ (data : List (String × List String)) (fs fs1 : List Field)
        (e : Option DecodeErr), value data fs none = .ok (fs1, e) →
        Load data (.ptr fs) = .ok (.done fs1 e)) := by
  refine ⟨fun e n => rfl, ?_, by rfl, ?_⟩
  · intro data f e0 f' e' h
    unfold processField at h
    cases hl : List.lookup (fieldKey f) data <;> rw [hl] at h <;> try dsimp only at h
    case none =>
      simp at h
      exact Or.inl h.2.symm
    case some dataV =>
      cases hset : f.settable <;> rw [hset] at h <;> try dsimp only at h
      case false =>
        simp at h
        exact Or.inl h.2.symm
      case true =>
        rw [if_neg (by simp)] at h
        cases hs : sliceStep f dataV (some e0) <;> rw [hs] at h <;> try dsimp only at h
        case error p => simp at h
        case ok pr =>
          obtain ⟨v1, e1⟩ := pr
          have he1 : e1 = some e0 := sliceStep_keeps f dataV e0 v1 e1 hs
          subst he1
          cases dataV with
          | nil =>
            simp at h
            exact Or.inl h.2.symm
          | cons d0 ds =>
            dsimp only at h
            by_cases hd : d0 = "null"
            · rw [if_pos hd] at h
              simp at h
              exact Or.inl h.2.symm
            · rw [if_neg hd] at h
              exact scalarStep_keeps f v1 d0 e0 f' e' h
  · intro data fs fs1 e h
    simp [Load, h]

/-- Witness for C3: a string field step keeps the already-recorded error, and
Load on a one-field record returns the walk's accumulated slot. -/
theorem C3_error_accumulation_witness :
    (some (DecodeErr.loadTypeError "e1") = some (DecodeErr.loadTypeError "e1") ∨
      some (DecodeErr.loadTypeError "e1") = some DecodeErr.invalidValue) ∧
    Load [("K", ["5"])] (Dest.ptr [⟨"K", "", true, GoVal.vStr ""⟩]) =
      .ok (.done [⟨"K", "", true, GoVal.vStr "5"⟩] none) :=
  ⟨C3_error_accumulation.2.1 [("K", ["5"])] ⟨"K", "", true, GoVal.vStr ""⟩
      (DecodeErr.loadTypeError "e1") ⟨"K", "", true, GoVal.vStr "5"⟩
      (some (DecodeErr.loadTypeError "e1")) (by rfl),
    C3_error_accumulation.2.2.2 [("K", ["5"])] [⟨"K", "", true, GoVal.vStr ""⟩]
      [⟨"K", "", true, GoVal.vStr "5"⟩] none (by rfl)⟩

/-- Element loop on string elements overwrites the first `xs.length` elements
with the same-position values of `ds` and leaves the error slot untouched. -/
lemma elemLoopStr_take (xs : List String) : ∀ (ds : List String) (e : Option DecodeErr),
    xs.length ≤ ds.length → elemLoopStr xs ds e = .ok (ds.take xs.length, e) := by
  induction xs with
  | nil => intro ds e _; simp [elemLoopStr]
  | cons x xs ih =>
    intro ds e hle
    cases ds with
    | nil => simp at hle
    | cons d ds =>
      simp only [List.length_cons, Nat.succ_le_succ_iff] at hle
      simp [elemLoopStr, ih ds e hle, List.take_succ_cons]

/-- Claim C4: for a settable slice field with nonzero current length whose key
is present, whose sequence is long enough for the element loop and whose
first value is not "null", the scalar switch still runs on the slice-kind
field, hits the default branch and sets the session error to the generic
invalid-value error — Load returns it even though every element was coerced
successfully (string elements never fail). -/
theorem C4_slice_scalar_clobber (k : String) (xs vals : List String)
    (hne : xs ≠ []) (hlen : xs.length ≤ vals.length)
    (hnull : vals.head? ≠ some "null") :
    Load [(k, vals)] (.ptr [⟨k, "", true, GoVal.vSliceStr xs⟩]) =
      .ok (.done [⟨k, "", true, GoVal.vSliceStr (vals.take xs.length)⟩]
        (some DecodeErr.invalidValue)) := by
  cases vals with
  | nil =>
    exact absurd (List.eq_nil_of_length_eq_zero (Nat.le_zero.mp hlen)) hne
  | cons v0 vs =>
    have hv0 : v0 ≠ "null" := by simpa using hnull
    have h0 : xs.length ≠ 0 := by simpa [List.length_eq_zero] using hne
    simp [Load, value, processField, fieldKey, List.lookup, sliceStep, h0,
      elemLoopStr_take xs (v0 :: vs) none hlen, scalarStep, hv0]

/-- Witness for C4: a one-element []string field with a valid input still
makes Load return the generic invalid-value error. -/
theorem C4_slice_scalar_clobber_witness :
    Load [("Xs", ["x"])] (Dest.ptr [⟨"Xs", "", true, GoVal.vSliceStr ["a"]⟩]) =
      .ok (.done [⟨"Xs", "", true, GoVal.vSliceStr ["x"]⟩]
        (some DecodeErr.invalidValue)) :=
  C4_slice_scalar_clobber "Xs" ["a"] ["x"] (by decide) (by decide) (by decide)

/-- Claim C5: for a nil, non-pointer, or nil-pointer destination, Load fails
with the InvalidLoadError whose message distinguishes the non-pointer case
("form: Parse(non-pointer T)") from the nil-pointer case ("form: Parse(nil
T)"), naming the declared type T when the destination has one (a nil
interface has no type and yields "form: Parse(nil)"); the outcome carries no
record, so the destination is never mutated on this path. -/
theorem C5_structural_errors (data : List (String × List String)) (t : String) :
    (Load data Dest.nilAny = .ok (.structural none) ∧
      invalidLoadErrorMessage none = "form: Parse(nil)") ∧
    (Load data (Dest.nonPtr t) = .ok (.structural (some (t, false))) ∧
      invalidLoadErrorMessage (some (t, false)) = "form: Parse(non-pointer " ++ t ++ ")") ∧
    (Load data (Dest.nilPtr t) = .ok (.structural (some (t, true))) ∧
      invalidLoadErrorMessage (some (t, true)) = "form: Parse(nil " ++ t ++ ")") :=
  ⟨⟨rfl, rfl⟩, ⟨rfl, rfl⟩, ⟨rfl, rfl⟩⟩

/-- Claim C6: for a settable unsigned-integer field whose key maps to a
sequence whose first value is a non-numeric string other than "null", Load
records a LoadTypeError whose value description embeds the raw string
("number " ++ raw), returns it as the first recorded error, and the field
ends at its zero value (ParseUint returned 0 and SetUint wrote it). -/
theorem C6_uint_mismatch (k raw : String) (hn : raw ≠ "null")
    (hbad : uintSyntaxBad raw = true) :
    Load [(k, [raw])] (.ptr [⟨k, "", true, GoVal.vUint 0⟩]) =
      .ok (.done [⟨k, "", true, GoVal.vUint 0⟩]
        (some (DecodeErr.loadTypeError ("number " ++ raw)))) := by
  simp [Load, value, processField, fieldKey, List.lookup, sliceStep, scalarStep,
    hn, goParseUint_of_bad raw hbad, saveError]

/-- Witness for C6 at the concrete raw string "abc". -/
theorem C6_uint_mismatch_witness :
    Load [("N", ["abc"])] (.ptr [⟨"N", "", true, GoVal.vUint 0⟩]) =
      .ok (.done [⟨"N", "", true, GoVal.vUint 0⟩]
        (some (DecodeErr.loadTypeError ("number " ++ "abc")))) :=
  C6_uint_mismatch "N" "abc" (by decide) (by decide)

/-- Claim C7 counterexample: the claim says a field whose first value is the
literal "null" is left unmodified regardless of declared type, but the slice
branch runs BEFORE the null check (decode_state.go lines 98-126 vs 132-134):
a settable []string field of length 1 with input ["null"] has its element
overwritten with "null", so the field is modified. -/
theorem C7_counterexample :
    Load [("F", ["null"])] (.ptr [⟨"F", "", true, GoVal.vSliceStr [""]⟩]) =
      .ok (.done [⟨"F", "", true, GoVal.vSliceStr ["null"]⟩] none) ∧
    Field.mk "F" "" true (GoVal.vSliceStr ["null"]) ≠
      Field.mk "F" "" true (GoVal.vSliceStr [""]) :=
  ⟨rfl, by decide⟩

/-- Claim C7 (amended): for every NON-slice field whose resolved key maps to
a sequence whose first value is the literal "null", the field is left
unmodified and no error is recorded; slice-typed fields still undergo the
element-wise pass before the null check. -/
theorem C7_null_skips_nonslice (data : List (String × List String)) (f : Field)
    (e : Option DecodeErr) (dv : List String)
    (hl : List.lookup (fieldKey f) data = some dv)
    (hh : dv.head? = some "null")
    (hs : isSliceVal f.val = false) :
    processField data f e = .ok (f, e) := by
  obtain ⟨nm, tg, st, vl⟩ := f
  cases dv with
  | nil => simp at hh
  | cons d0 ds =>
    have hd : d0 = "null" := by simpa using hh
    subst hd
    cases st
    case false => simp [processField, hl]
    case true =>
      have hslice : sliceStep ⟨nm, tg, true, vl⟩ ("null" :: ds) e = .ok (vl, e) := by
        cases vl <;> simp [isSliceVal] at hs <;> simp [sliceStep]
      simp [processField, hl, hslice]

/-- Witness for C7's amended statement: a pre-set scalar string field with
input ["null"] stays untouched and records nothing. -/
theorem C7_null_skips_nonslice_witness :
    processField [("S", ["null"])] ⟨"S", "", true, GoVal.vStr "keep"⟩ none =
      .ok (⟨"S", "", true, GoVal.vStr "keep"⟩, none) :=
  C7_null_skips_nonslice [("S", ["null"])] ⟨"S", "", true, GoVal.vStr "keep"⟩
    none ["null"] (by rfl) (by rfl) (by rfl)

/-- Claim C8: a field whose resolved lookup key is absent from the input
mapping is left entirely unchanged (no zeroing, no error); in particular the
empty mapping decoded into a record with pre-set Status = "success" leaves
Status unchanged and Load returns no error. -/
theorem C8_absent_key :
    (∀ (data : List (String × List String)) (f : Field) (e : Option DecodeErr),
        List.lookup (fieldKey f) data = none → processField data f e = .ok (f, e)) ∧
    Load [] (.ptr [⟨"Status", "", true, GoVal.vStr "success"⟩]) =
      .ok (.done [⟨"Status", "", true, GoVal.vStr "success"⟩] none) := by
  constructor
  · intro data f e h
    simp [processField, h]
  · rfl

/-- Witness for C8: the absent-key skip applied at the Status example. -/
theorem C8_absent_key_witness :
    processField [] ⟨"Status", "", true, GoVal.vStr "success"⟩ none =
      .ok (⟨"Status", "", true, GoVal.vStr "success"⟩, none) :=
  C8_absent_key.1 [] ⟨"Status", "", true, GoVal.vStr "success"⟩ none (by rfl)

/-- Claim C9: the lookup key is the field's "request"-tag alias when that tag
is present and non-empty, otherwise the field's declared name; end-to-end,
mapping {"type": ["1"]} decoded into a record with string field Type aliased
to "type" yields Type == "1" with no error. -/
theorem C9_alias_resolution :
    (∀ f : Field, f.tag ≠ "" → fieldKey f = f.tag) ∧
    (∀ f : Field, f.tag = "" → fieldKey f = f.name) ∧
    Load [("type", ["1"])] (.ptr [⟨"Type", "type", true, GoVal.vStr ""⟩]) =
      .ok (.done [⟨"Type", "type", true, GoVal.vStr "1"⟩] none) := by
  refine ⟨?_, ?_, rfl⟩
  · intro f h
    simp [fieldKey, h]
  · intro f h
    simp [fieldKey, h]

/-- Witness for C9 at the aliased Type field. -/
theorem C9_alias_resolution_witness :
    fieldKey ⟨"Type", "type", true, GoVal.vStr ""⟩ = "type" :=
  C9_alias_resolution.1 ⟨"Type", "type", true, GoVal.vStr ""⟩ (by decide)

/-- Claim C10: for a settable signed-integer field whose key maps to a
sequence whose first value is an unparsable string other than "null", Load
records no error and the field ends at its zero value (ParseInt's error is
discarded and the 0 it returned is written). -/
theorem C10_int_silent (k raw : String) (hn : raw ≠ "null")
    (hbad : intSyntaxBad raw = true) :
    Load [(k, [raw])] (.ptr [⟨k, "", true, GoVal.vInt 0⟩]) =
      .ok (.done [⟨k, "", true, GoVal.vInt 0⟩] none) := by
  simp [Load, value, processField, fieldKey, List.lookup, sliceStep, scalarStep,
    hn, goParseInt_of_bad raw hbad]

/-- Witness for C10 at the concrete raw string "abc". -/
theorem C10_int_silent_witness :
    Load [("N", ["abc"])] (.ptr [⟨"N", "", true, GoVal.vInt 0⟩]) =
      .ok (.done [⟨"N", "", true, GoVal.vInt 0⟩] none) :=
  C10_int_silent "N" "abc" (by decide) (by decide)

end Form
